import Mathlib

/-!
Verification development for the wokemaps map-overlay engine.

Shallow embedding of the coordinate / state-tracking core:
* `calculateFrameMovement`, `findAnchorTile`, `processFrame`, `resetBaselines`
  from `content-in-google-maps.js` (WebGL tile-movement tracker);
* the Mercator projection utilities (`googleMapsLatLngToPoint`,
  `convertMetersToZoom`) from the CoordinateTransformer utility;
* `URLParser.extractMapParameters` from `url-parser.js`, including a faithful
  model of the two regular expressions and of JavaScript `parseFloat`
  restricted to the character class those regexes can capture;
* the `MapState2D` state machine (`updatePositionFromUrl`,
  `handlePotentialZoomInteraction`, `handleUrlChanged`, transform refresh)
  from `map-state-2d.js`, with DOM reads (computed style, parent dimensions,
  current URL) supplied through an explicit environment record;
* the coordinate conversions `MapState2D.mapLatLngToCanvas` and the
  `latLngToCanvasPixel` variant, and the zoom-range label filters.

Numbers: JavaScript numbers are modelled as `ℚ` where the code only does
field arithmetic and comparisons, and as `ℝ` where it uses transcendental
functions (`Math.log`, `Math.tan`, `Math.pow` with real exponent); pixel
values produced by `Math.floor` are `ℤ`.
-/

namespace Wokemaps

/-! ### Tile movement (content-in-google-maps.js, WebGL variant) -/

/-- Virtual anchor position of a frame, as produced by `findAnchorTile`
(the `scissor` payload field is carried along by the code but never read by
the movement computation, so it is omitted here). -/
structure Anchor where
  x : ℤ
  y : ℤ
  deriving DecidableEq, Repr

/-- Result record of `calculateFrameMovement`. -/
structure Movement where
  x : ℤ
  y : ℤ
  wrapped : Bool
  deriving DecidableEq, Repr

/-- `calculateFrameMovement(fromAnchor, toAnchor)`: per-axis delta between two
anchors, with deltas whose magnitude exceeds 256 (half of `TILE_SIZE = 512`)
unwrapped by one full tile unit and flagged as wrapped. -/
def calculateFrameMovement (fromAnchor toAnchor : Option Anchor) : Option Movement :=
  match fromAnchor, toAnchor with
  | some f, some t =>
    let deltaX := t.x - f.x
    let deltaY := t.y - f.y
    let adjustedDeltaX := if 256 < |deltaX| then (if 0 < deltaX then deltaX - 512 else deltaX + 512) else deltaX
    let adjustedDeltaY := if 256 < |deltaY| then (if 0 < deltaY then deltaY - 512 else deltaY + 512) else deltaY
    let wrapped := 256 < |deltaX| ∨ 256 < |deltaY|
    some { x := adjustedDeltaX, y := adjustedDeltaY, wrapped := wrapped }
  | _, _ => none

/-- One scissor rectangle collected for the current frame. -/
structure Tile where
  x : ℤ
  y : ℤ
  width : ℤ
  height : ℤ
  deriving DecidableEq, Repr

/-- `TILE_SIZE` of the WebGL tracker. -/
def TILE_SIZE : ℤ := 512

/-- A tile together with its computed virtual position. -/
structure VTile where
  tile : Tile
  virtualX : ℤ
  virtualY : ℤ
  deriving DecidableEq, Repr

/-- Stable insertion of one element into a list sorted by `key`, keeping
earlier elements first among equals (stability of JavaScript `Array.sort`). -/
def stableInsertBy (key : Tile → ℤ) (t : Tile) : List Tile → List Tile
  | [] => [t]
  | u :: us => if key u ≤ key t then u :: stableInsertBy key t us else t :: u :: us

/-- Stable sort by a key, modelling `[...tiles].sort((a, b) => key a - key b)`.
Any stable sort agrees with the JavaScript engine's stable sort on a total
preorder comparator, so insertion sort is a faithful model. -/
def stableSortBy (key : Tile → ℤ) (l : List Tile) : List Tile :=
  l.foldl (fun acc t => stableInsertBy key t acc) []

/-- Virtual X of one tile given the next tile to the right in x-sorted order
(mirrors the `virtualX` branch of `calculateVirtualTilePosition`). -/
def virtualXOf (tile : Tile) (rightTile : Option Tile) : ℤ :=
  if tile.width = TILE_SIZE then tile.x
  else if 0 < tile.width then
    match rightTile with
    | some rt =>
      if 0 < rt.width then tile.x + tile.width - TILE_SIZE
      else if rt.width = 0 then rt.x - tile.width
      else tile.x + tile.width - TILE_SIZE
    | none => tile.x + tile.width - TILE_SIZE
  else tile.x

/-- Virtual Y of one tile: looks at the next tile below among the tiles with
the same x (mirrors the `virtualY` branch of `calculateVirtualTilePosition`).
`tiles` is the whole input list, as in the source. -/
def virtualYOf (tiles : List Tile) (tile : Tile) : ℤ :=
  if tile.height = TILE_SIZE then tile.y
  else if 0 < tile.height then
    let tilesAtSameX := stableSortBy Tile.y (tiles.filter (fun t => t.x = tile.x))
    let currentIndex := tilesAtSameX.findIdx (fun t => t.y = tile.y)
    match tilesAtSameX[currentIndex + 1]? with
    | some belowTile =>
      if 0 < belowTile.height then tile.y + tile.height - TILE_SIZE
      else if belowTile.height = 0 then belowTile.y - tile.height
      else tile.y + tile.height - TILE_SIZE
    | none => tile.y + tile.height - TILE_SIZE
  else tile.y

/-- Walk the x-sorted list, pairing each tile with its right neighbour. -/
def virtualizeSorted (tiles : List Tile) : List Tile → List VTile
  | [] => []
  | t :: rest =>
    { tile := t, virtualX := virtualXOf t rest.head?, virtualY := virtualYOf tiles t }
      :: virtualizeSorted tiles rest

/-- `calculateVirtualTilePosition(tiles)`. -/
def calculateVirtualTilePosition (tiles : List Tile) : List VTile :=
  virtualizeSorted tiles (stableSortBy Tile.x tiles)

/-- `findAnchorTile(tiles)`: among tiles with positive dimensions of at most
one tile unit, the one minimising virtualX + virtualY (first wins on ties). -/
def findAnchorTile (tiles : List Tile) : Option Anchor :=
  if tiles = [] then none
  else
    let visibleTiles := tiles.filter fun t =>
      0 < t.width ∧ 0 < t.height ∧ t.width ≤ TILE_SIZE ∧ t.height ≤ TILE_SIZE
    if visibleTiles = [] then none
    else
      match calculateVirtualTilePosition visibleTiles with
      | [] => none
      | v0 :: vs =>
        let anchor := vs.foldl
          (fun acc t => if t.virtualX + t.virtualY < acc.virtualX + acc.virtualY then t else acc) v0
        some { x := anchor.virtualX, y := anchor.virtualY }

/-- Accumulated movement vector. -/
structure Vec2 where
  x : ℤ
  y : ℤ
  deriving DecidableEq, Repr

/-- Position payload carried by `resetBaselines` (parsed URL position). -/
structure MapPosition where
  lat : ℚ
  lng : ℚ
  magnification : ℚ
  deriving DecidableEq, Repr

/-- The mutable `tileTracker` record. -/
structure TileTracker where
  urlBaseline : Option Anchor
  frameBaseline : Option Anchor
  totalMovement : Vec2
  mapPosition : Option MapPosition
  currentFrameTiles : List Tile
  deriving DecidableEq, Repr

/-- Messages the tracker posts to the isolated world (plus the immediate
overlay CSS translation, which carries the same movement vector). -/
inductive TrackerMsg
  | baselineReset
  | tileMovement (x y : ℤ)
  deriving DecidableEq, Repr

/-- The accumulation step of `processFrame`: fold a nonzero per-frame
movement into the running vector and post it to the isolated world. -/
def accumulateMovement (st : TileTracker) (frameMovement : Option Movement) :
    TileTracker × List TrackerMsg :=
  match frameMovement with
  | some m =>
    if m.x ≠ 0 ∨ m.y ≠ 0 then
      ({ st with totalMovement :=
           { x := st.totalMovement.x + m.x, y := st.totalMovement.y + m.y } },
       [TrackerMsg.tileMovement (st.totalMovement.x + m.x) (st.totalMovement.y + m.y)])
    else (st, [])
  | none => (st, [])

/-- `processFrame()`: capture a URL baseline on the first anchor after a
ground-truth reset, otherwise accumulate the (wrap-corrected) per-frame delta
against the sliding frame baseline. -/
def processFrame (st : TileTracker) : TileTracker × List TrackerMsg :=
  if st.currentFrameTiles = [] then (st, [])
  else
    match findAnchorTile st.currentFrameTiles with
    | none => (st, [])
    | some anchor =>
      if st.urlBaseline = none then
        ({ st with urlBaseline := some anchor
                   totalMovement := { x := 0, y := 0 }
                   frameBaseline := some anchor },
         [TrackerMsg.baselineReset])
      else
        let frameMovement := calculateFrameMovement st.frameBaseline (some anchor)
        let (st1, msgs) := accumulateMovement st frameMovement
        ({ st1 with frameBaseline := some anchor, currentFrameTiles := [] }, msgs)

/-- `resetBaselines(newPosition)`: re-capture the URL baseline from the
current frame baseline (preserving current state) and zero the movement. -/
def resetBaselines (newPosition : MapPosition) (st : TileTracker) :
    TileTracker × List TrackerMsg :=
  let st1 := { st with mapPosition := some newPosition }
  match st.frameBaseline with
  | some fb =>
    ({ st1 with urlBaseline := some fb, totalMovement := { x := 0, y := 0 } },
     [TrackerMsg.baselineReset])
  | none =>
    ({ st1 with urlBaseline := none, totalMovement := { x := 0, y := 0 } },
     [TrackerMsg.baselineReset])

/-- The corrected per-frame delta a `processFrame` call folds into the running
vector when a baseline already exists (zero when the frame has no usable
anchor; folding a zero delta is the same as the code's skip). -/
def frameDelta (st : TileTracker) : Vec2 :=
  match findAnchorTile st.currentFrameTiles with
  | none => { x := 0, y := 0 }
  | some anchor =>
    match calculateFrameMovement st.frameBaseline (some anchor) with
    | some m => { x := m.x, y := m.y }
    | none => { x := 0, y := 0 }

/-! ### URL parsing (url-parser.js) -/

/-- The character class `[-\d.]` of the position regexes. -/
def isFloatChar (c : Char) : Bool := c = '-' || c.isDigit || c = '.'

/-- Numeric value of a digit string (most significant first). -/
def digitsVal (s : List Char) : ℕ :=
  s.foldl (fun n c => 10 * n + (c.toNat - '0'.toNat)) 0

/-- Syntactic part of JavaScript `parseFloat` restricted to strings over
`-`, digits and `.` (the only characters the regex groups can capture): an
optional leading minus sign, then the longest prefix `digits [. digits]`;
`none` models `NaN` (no digit in the numeric part). Trailing junk is
ignored, as in JavaScript. Returns (sign, integer digits, fraction digits). -/
def parseFloatParts (s : List Char) : Option (Bool × List Char × List Char) :=
  let (neg, s1) : Bool × List Char :=
    match s with
    | '-' :: rest => (true, rest)
    | _ => (false, s)
  let intPart := s1.takeWhile Char.isDigit
  let s2 := s1.drop intPart.length
  let fracPart :=
    match s2 with
    | '.' :: r => r.takeWhile Char.isDigit
    | _ => []
  if intPart = [] ∧ fracPart = [] then none
  else some (neg, intPart, fracPart)

/-- Numeric value of the parsed parts (JavaScript `parseFloat`, with the
exact rational value in place of the nearest IEEE double). -/
def parseFloatQ (s : List Char) : Option ℚ :=
  (parseFloatParts s).map fun p =>
    let mag : ℚ := (digitsVal p.2.1 : ℚ) + (digitsVal p.2.2 : ℚ) / 10 ^ p.2.2.length
    if p.1 then -mag else mag

/-- Greedy match of `\d+\.?\d*` at the start of `s`; returns the matched
characters and the rest. (For this sub-pattern followed by a non-digit,
non-dot literal, greedy matching with backtracking is deterministic, since no
shorter choice of any sub-group can make the following literal match.) -/
def matchNum (s : List Char) : Option (List Char × List Char) :=
  let d1 := s.takeWhile Char.isDigit
  if d1 = [] then none
  else
    let s1 := s.drop d1.length
    match s1 with
    | '.' :: r =>
      let d2 := r.takeWhile Char.isDigit
      some (d1 ++ '.' :: d2, r.drop d2.length)
    | _ => some (d1, s1)

/-- Try `([-\d.]+),([-\d.]+),(\d+\.?\d*)<suffix>` right after an `@`.
The `[-\d.]+` groups are maximal runs: the class does not contain `,`, so no
backtracking into a shorter run can ever satisfy the following literal. -/
def tryPatternAt (suffix : Char) (s : List Char) :
    Option (List Char × List Char × List Char) :=
  let g1 := s.takeWhile isFloatChar
  if g1 = [] then none
  else
    match s.drop g1.length with
    | ',' :: s2 =>
      let g2 := s2.takeWhile isFloatChar
      if g2 = [] then none
      else
        match s2.drop g2.length with
        | ',' :: s3 =>
          match matchNum s3 with
          | some (g3, rest) =>
            match rest with
            | c :: _ => if c = suffix then some (g1, g2, g3) else none
            | [] => none
          | none => none
        | _ => none
    | _ => none

/-- Leftmost match of `@([-\d.]+),([-\d.]+),(\d+\.?\d*)<suffix>` in a string:
scan left to right for an `@` whose tail matches. -/
def scanPattern (suffix : Char) : List Char → Option (List Char × List Char × List Char)
  | [] => none
  | c :: rest =>
    if c = '@' then
      match tryPatternAt suffix rest with
      | some g => some g
      | none => scanPattern suffix rest
    else scanPattern suffix rest

/-- Parsed URL position: direct zoom encoding or satellite meters encoding. -/
inductive UrlPosition
  | zoomPos (lat lng zoom : ℚ)
  | metersPos (lat lng meters : ℚ)
  deriving DecidableEq, Repr

/-- The zoom-format attempt of `URLParser.extractMapParameters`: the `z`
pattern must match and all three captured groups must parse to numbers. -/
def extractZoomFormat (url : List Char) : Option UrlPosition :=
  match scanPattern 'z' url with
  | some (g1, g2, g3) =>
    match parseFloatQ g1, parseFloatQ g2, parseFloatQ g3 with
    | some lat, some lng, some zoom => some (UrlPosition.zoomPos lat lng zoom)
    | _, _, _ => none
  | none => none

/-- The meters-format attempt (`@lat,lng,<n>m`, satellite mode). -/
def extractMetersFormat (url : List Char) : Option UrlPosition :=
  match scanPattern 'm' url with
  | some (g1, g2, g3) =>
    match parseFloatQ g1, parseFloatQ g2, parseFloatQ g3 with
    | some lat, some lng, some meters => some (UrlPosition.metersPos lat lng meters)
    | _, _, _ => none
  | none => none

/-- `URLParser.extractMapParameters(url)`: try the standard zoom format
first; if it does not yield finite numbers, try the satellite meters format;
otherwise `null`. -/
def extractMapParameters (url : List Char) : Option UrlPosition :=
  match extractZoomFormat url with
  | some r => some r
  | none => extractMetersFormat url

/-! ### Projection utility (CoordinateTransformer) -/

noncomputable section

/-- Latitude in radians, `lat * Math.PI / 180`. -/
def latRad (lat : ℝ) : ℝ := lat * Real.pi / 180

/-- The Mercator ordinate `Math.log(Math.tan(Math.PI / 4 + latRad / 2))`. -/
def mercN (lat : ℝ) : ℝ := Real.log (Real.tan (Real.pi / 4 + latRad lat / 2))

/-- Normalized x coordinate, `(lng + 180) / 360`. -/
def normX (lng : ℝ) : ℝ := (lng + 180) / 360

/-- Normalized y coordinate, `0.5 - mercN / (2 * Math.PI)`. -/
def normY (lat : ℝ) : ℝ := 1 / 2 - mercN lat / (2 * Real.pi)

/-- World size in pixels at a zoom level for a given tile size,
`Math.pow(2, zoom) * tileSize`. -/
def worldSize (zoom : ℝ) (tileSize : ℤ) : ℝ := (2 : ℝ) ^ zoom * (tileSize : ℝ)

/-- `googleMapsLatLngToPoint(lat, lng, zoom, tileSize)` (label-renderer
variant with explicit tile size): floor to integer world pixels. -/
def googleMapsLatLngToPointT (lat lng zoom : ℝ) (tileSize : ℤ) : ℤ × ℤ :=
  (⌊normX lng * worldSize zoom tileSize⌋, ⌊normY lat * worldSize zoom tileSize⌋)

/-- `CoordinateTransformer.googleMapsLatLngToPoint(lat, lng, zoom)`: the
shared utility fixes the tile size at 256. -/
def googleMapsLatLngToPoint (lat lng zoom : ℝ) : ℤ × ℤ :=
  googleMapsLatLngToPointT lat lng zoom 256

/-- `CoordinateTransformer.calculatePixelOffset`: pixel delta between the
projections of two geographic points (the code's `null` propagation never
fires: the projection always returns a point). -/
def calculatePixelOffset (fromLat fromLng toLat toLng zoom : ℝ) : ℤ × ℤ :=
  let fromPixel := googleMapsLatLngToPoint fromLat fromLng zoom
  let toPixel := googleMapsLatLngToPoint toLat toLng zoom
  (toPixel.1 - fromPixel.1, toPixel.2 - fromPixel.2)

/-- Inverse of the normalized-x map: one world pixel back to longitude,
`px / worldSize * 360 - 180` (the standard inverse Mercator abscissa the
spec's round-trip property refers to). -/
def invLngOfNormX (x : ℝ) : ℝ := x * 360 - 180

/-- Inverse of the normalized-y Mercator map: `normY` back to latitude in
degrees via `2 * arctan(exp(mercN)) - pi / 2` (the standard inverse Mercator
ordinate the spec's round-trip property refers to). -/
def invLatOfNormY (y : ℝ) : ℝ :=
  (2 * Real.arctan (Real.exp ((1 / 2 - y) * (2 * Real.pi))) - Real.pi / 2) * 180 / Real.pi

/-- `CoordinateTransformer.convertMetersToZoom(metersVisible, lat,
viewportHeight)`: zoom equivalent of a "meters visible" vertical extent,
adjusted by the latitude-dependent Mercator factor and clamped non-negative. -/
def convertMetersToZoom (metersVisible lat viewportHeight : ℝ) : ℝ :=
  let EARTH_CIRCUMFERENCE : ℝ := 40075017
  let SMALL_TILE : ℝ := 256
  let equatorMetersPerPixelZoom0 := EARTH_CIRCUMFERENCE / SMALL_TILE
  let currentMetersPerPixel := metersVisible / viewportHeight
  let scaleFactorAtEquator := equatorMetersPerPixelZoom0 / currentMetersPerPixel
  let zoomAtEquator := Real.logb 2 scaleFactorAtEquator
  let mercatorScaleFactor := 1 / Real.cos (latRad lat)
  let adjustedZoom := zoomAtEquator - Real.logb 2 mercatorScaleFactor
  max 0 adjustedZoom

/-! ### MapState2D (map-state-2d.js) -/

/-- A parsed CSS transform, `{translateX, translateY, scale}`. -/
structure Transform where
  translateX : ℚ
  translateY : ℚ
  scale : ℚ
  deriving DecidableEq, Repr

/-- Environment of one `MapState2D` tick: everything the methods read from
the DOM. `canvasStyle`/`parentStyle` are the computed-style transforms
(`none` models the CSS value `none`/missing), already taken through
`parseTransform`; `url` is `window.location.href`; `parentHeight` is
`mapCanvas.getParentDimensions().height`. -/
structure MapEnv where
  url : List Char
  parentWidth : ℚ
  parentHeight : ℚ
  canvasStyle : Option Transform
  parentStyle : Option Transform

/-- Change-notification kinds emitted to `notifyListeners`. -/
inductive Change
  | position
  | canvasTransform
  | parentTransform
  | zoomResolved
  deriving DecidableEq, Repr

/-- The `MapState2D` mutable state. `timeout` is the absolute time (ms) at
which the pending `zoomInteractionTimeout` will fire, `none` when no timer is
pending. `viewMode` is `some` of a mode string or `none` for `undefined`. -/
structure MapState where
  center : Option (ℚ × ℚ)
  zoom : ℤ
  viewMode : Option (List Char)
  canvasTransform : Transform
  parentTransform : Transform
  parentIsZero : Bool
  isPotentiallyZooming : Bool
  timeout : Option ℤ

/-- `MapState2D.updatePositionFromUrl()`: ground-truth refresh. Returns the
new state and the list of emitted change notifications. The parse result
carries no `mode` field, so `this.viewMode = position.mode` stores
`undefined` (`none`). -/
def updatePositionFromUrl (env : MapEnv) (st : MapState) : MapState × List Change :=
  if st.parentIsZero = false then (st, [])
  else
    match extractMapParameters env.url with
    | none => (st, [])
    | some position =>
      let lat := match position with
        | .zoomPos la _ _ => la
        | .metersPos la _ _ => la
      let lng := match position with
        | .zoomPos _ ln _ => ln
        | .metersPos _ ln _ => ln
      let centerChanged := st.center ≠ some (lat, lng)
      let calculatedZoom : ℤ :=
        match position with
        | .zoomPos _ _ z => round z
        | .metersPos la _ m =>
          round (convertMetersToZoom (m : ℝ) (la : ℝ) (env.parentHeight : ℝ))
      let zoomChanged := st.zoom ≠ calculatedZoom
      let hasChanges := centerChanged ∨ zoomChanged
      ({ st with viewMode := none, center := some (lat, lng), zoom := calculatedZoom },
       if hasChanges then [Change.position] else [])

/-- `MapState2D.updateCanvasTransform()`: refresh the canvas transform from
computed style (skipped when the style is `none`). -/
def updateCanvasTransform (env : MapEnv) (st : MapState) : MapState × List Change :=
  match env.canvasStyle with
  | none => (st, [])
  | some t =>
    if t ≠ st.canvasTransform then
      ({ st with canvasTransform := t }, [Change.canvasTransform])
    else (st, [])

/-- The "parent just went to zero" refresh step of `updateParentTransform`. -/
def parentRestRefresh (env : MapEnv) (st1 : MapState) (wasZero isZero : Bool) :
    MapState × List Change :=
  if wasZero = false ∧ isZero = true then updatePositionFromUrl env st1
  else (st1, [])

/-- `MapState2D.updateParentTransform()`: refresh the parent transform; a
transition of the parent translation to (near) zero triggers an immediate
ground-truth refresh. -/
def updateParentTransform (env : MapEnv) (st : MapState) : MapState × List Change :=
  let t := env.parentStyle.getD { translateX := 0, translateY := 0, scale := 1 }
  if t ≠ st.parentTransform then
    let isZero : Bool := |t.translateX| < 1 ∧ |t.translateY| < 1
    let st1 := { st with parentTransform := t, parentIsZero := isZero }
    let r := parentRestRefresh env st1 st.parentIsZero isZero
    (r.1, r.2 ++ [Change.parentTransform])
  else (st, [])

/-- `MapState2D.handlePotentialZoomInteraction()` at absolute time `now`:
suspend painting and (re)arm the 1-second debounce timer, clearing any
pending one. -/
def handlePotentialZoomInteraction (now : ℤ) (st : MapState) : MapState × List Change :=
  ({ st with isPotentiallyZooming := true, timeout := some (now + 1000) }, [])

/-- The body of the `zoomInteractionTimeout` callback: full refresh and a
`zoomResolved` notification. -/
def fireZoomTimeout (env : MapEnv) (st : MapState) : MapState × List Change :=
  let st0 := { st with timeout := none, isPotentiallyZooming := false }
  let r1 := updatePositionFromUrl env st0
  let r2 := updateCanvasTransform env r1.1
  let r3 := updateParentTransform env r2.1
  (r3.1, r1.2 ++ r2.2 ++ r3.2 ++ [Change.zoomResolved])

/-- `MapState2D.handleUrlChanged()`: ground-truth refresh on a navigation
event; a pending zoom-interaction timer is cancelled and resolved
immediately. -/
def handleUrlChanged (env : MapEnv) (st : MapState) : MapState × List Change :=
  if st.parentIsZero then
    let r1 := updatePositionFromUrl env st
    if r1.1.timeout ≠ none then
      let st2 := { r1.1 with timeout := none, isPotentiallyZooming := false }
      let r3 := updateCanvasTransform env st2
      let r4 := updateParentTransform env r3.1
      (r4.1, r1.2 ++ r3.2 ++ r4.2 ++ [Change.zoomResolved])
    else r1
  else (st, [])

/-- External events driving the interaction state machine. -/
inductive MapEvent
  | zoomInput
  | urlChanged
  deriving DecidableEq, Repr

/-- Run a time-ordered list of events. Before each event, a pending timer
that is due fires first (timestamped at its scheduled time); after the last
event a pending timer fires. Notifications are paired with the time at which
they are emitted. -/
def runEvents (env : MapEnv) : List (ℤ × MapEvent) → MapState → MapState × List (ℤ × Change)
  | [], st =>
    match st.timeout with
    | some tf =>
      let r := fireZoomTimeout env st
      (r.1, r.2.map fun c => (tf, c))
    | none => (st, [])
  | (t, ev) :: rest, st =>
    let pre : MapState × List (ℤ × Change) :=
      match st.timeout with
      | some tf =>
        if tf ≤ t then
          let r := fireZoomTimeout env st
          (r.1, r.2.map fun c => (tf, c))
        else (st, [])
      | none => (st, [])
    let evr :=
      match ev with
      | .zoomInput => handlePotentialZoomInteraction t pre.1
      | .urlChanged => handleUrlChanged env pre.1
    let restr := runEvents env rest evr.1
    (restr.1, pre.2 ++ evr.2.map (fun c => (t, c)) ++ restr.2)

/-- A concrete environment for exercising the state machine. -/
def sampleEnv : MapEnv :=
  { url := "https://maps.example/preview".toList, parentWidth := 800, parentHeight := 600,
    canvasStyle := none, parentStyle := none }

/-- A concrete quiescent state (no pending timer). -/
def sampleIdleState : MapState :=
  { center := none, zoom := 0, viewMode := some "map".toList,
    canvasTransform := ⟨0, 0, 1⟩, parentTransform := ⟨0, 0, 1⟩,
    parentIsZero := true, isPotentiallyZooming := false, timeout := none }

/-- A concrete state with a pending zoom-interaction timer. -/
def samplePendingState : MapState :=
  { sampleIdleState with isPotentiallyZooming := true, timeout := some 1000 }

/-! ### The legacy `updatePositionFromUrl` variant (unnamed part_006) -/

/-- Match `@([-\d.]+),([-\d.]+)` (leftmost): the center pattern of the
legacy refresh. The second group's maximal run has no following literal. -/
def scanCenterPattern : List Char → Option (List Char × List Char)
  | [] => none
  | c :: rest =>
    if c = '@' then
      match
        (let g1 := rest.takeWhile isFloatChar
         if g1 = [] then none
         else
           match rest.drop g1.length with
           | ',' :: s2 =>
             let g2 := s2.takeWhile isFloatChar
             if g2 = [] then none else some (g1, g2)
           | _ => none : Option (List Char × List Char))
      with
      | some g => some g
      | none => scanCenterPattern rest
    else scanCenterPattern rest

/-- State touched by the legacy refresh. -/
structure LegacyState where
  parentIsZero : Bool
  lastCenter : Option (ℚ × ℚ)
  lastZoom : Option ℤ
  deriving DecidableEq, Repr

/-- The legacy `updatePositionFromUrl()` (unnamed part_006): clears
`lastCenter`/`lastZoom` and re-derives them from the URL, leaving them null
when the pattern is absent or unparseable. -/
def legacyUpdatePositionFromUrl (url : List Char) (st : LegacyState) : LegacyState :=
  if st.parentIsZero = false then st
  else
    let lastCenter :=
      match scanCenterPattern url with
      | some (g1, g2) =>
        match parseFloatQ g1, parseFloatQ g2 with
        | some lat, some lng => some (lat, lng)
        | _, _ => none
      | none => none
    let lastZoom :=
      match scanPattern 'z' url with
      | some (_, _, g3) =>
        match parseFloatQ g3 with
        | some z => some (round z)
        | none => none
      | none => none
    { st with lastCenter := lastCenter, lastZoom := lastZoom }

/-! ### Coordinate conversion to canvas pixels -/

/-- Inputs of the two latitude/longitude → canvas-pixel conversions:
tracked center and zoom, canvas transform, overlay center in display
coordinates, parent (container) integer pixel dimensions, tile size and the
device-pixel-ratio transform multiplier. -/
structure ConvEnv where
  centerLat : ℝ
  centerLng : ℝ
  zoom : ℝ
  translateX : ℝ
  translateY : ℝ
  canvasCenterX : ℝ
  canvasCenterY : ℝ
  parentWidth : ℤ
  parentHeight : ℤ
  tileSize : ℤ
  transformMultiplier : ℝ

/-- `MapState2D.mapLatLngToCanvas(lat, lng)`: overlay center plus pixel
offset from center, minus the raw canvas translation. The overlay center is
`getParentDimensions() / 2` in this variant. -/
def mapLatLngToCanvas (env : ConvEnv) (lat lng : ℝ) : ℝ × ℝ :=
  let offset := calculatePixelOffset env.centerLat env.centerLng lat lng env.zoom
  let canvasCenterX := (env.parentWidth : ℝ) / 2
  let canvasCenterY := (env.parentHeight : ℝ) / 2
  (canvasCenterX + (offset.1 : ℝ) - env.translateX,
   canvasCenterY + (offset.2 : ℝ) - env.translateY)

/-- `latLngToCanvasPixel(lat, lng)` (unnamed part_006): same projection delta,
but against `mapCanvas.getCenter()`, with the canvas translation scaled by
the transform multiplier and a tile-alignment correction
`-tileSize + (parentDimension % (tileSize / 2))` on each axis. -/
def latLngToCanvasPixel (env : ConvEnv) (lat lng : ℝ) : ℝ × ℝ :=
  let labelPixel := googleMapsLatLngToPointT lat lng env.zoom env.tileSize
  let centerPixel := googleMapsLatLngToPointT env.centerLat env.centerLng env.zoom env.tileSize
  let worldOffsetX := labelPixel.1 - centerPixel.1
  let worldOffsetY := labelPixel.2 - centerPixel.2
  let tileAlignmentX := -env.tileSize + env.parentWidth % (env.tileSize / 2)
  let tileAlignmentY := -env.tileSize + env.parentHeight % (env.tileSize / 2)
  (env.canvasCenterX + (worldOffsetX : ℝ) - env.translateX * env.transformMultiplier + (tileAlignmentX : ℝ),
   env.canvasCenterY + (worldOffsetY : ℝ) - env.translateY * env.transformMultiplier + (tileAlignmentY : ℝ))

/-- The conversion formula exactly as the specification words it: pixel delta
between projected point and projected center, plus the overlay's
center-in-display-coordinates, minus the tracked canvasTransform translation
scaled for device pixel ratio, plus a tile-alignment correction of
`-tileSize + (container dimension mod half a tile)` per axis. -/
def specLatLngToCanvas (env : ConvEnv) (lat lng : ℝ) : ℝ × ℝ :=
  let point := googleMapsLatLngToPointT lat lng env.zoom env.tileSize
  let centerPoint := googleMapsLatLngToPointT env.centerLat env.centerLng env.zoom env.tileSize
  let deltaX : ℝ := ((point.1 - centerPoint.1 : ℤ) : ℝ)
  let deltaY : ℝ := ((point.2 - centerPoint.2 : ℤ) : ℝ)
  (deltaX + env.canvasCenterX - env.translateX * env.transformMultiplier
     + ((-env.tileSize + env.parentWidth % (env.tileSize / 2) : ℤ) : ℝ),
   deltaY + env.canvasCenterY - env.translateY * env.transformMultiplier
     + ((-env.tileSize + env.parentHeight % (env.tileSize / 2) : ℤ) : ℝ))

end

/-! ### Zoom-range label filters -/

/-- A label as the 2D overlay engine sees it: `zoomLimits` window (other
fields do not influence zoom filtering). -/
structure OverlayLabel where
  minZoom : ℚ
  maxZoom : ℚ
  deriving DecidableEq, Repr

/-- The zoom test of `OverlayEngine.redrawAllLabels`:
`zoom >= label.zoomLimits[0] && zoom < label.zoomLimits[1]`. -/
def labelInZoomRange (zoom : ℚ) (label : OverlayLabel) : Bool :=
  decide (label.minZoom ≤ zoom) && decide (zoom < label.maxZoom)

/-- The labels `redrawAllLabels` selects for painting at a given zoom. -/
def redrawSelectedLabels (labels : List OverlayLabel) (zoom : ℚ) : List OverlayLabel :=
  labels.filter (labelInZoomRange zoom)

/-- The zoom test of the legacy `renderOverlappingLabels` (unnamed part_006):
`lastZoom >= label.minZoom && lastZoom <= label.maxZoom`. -/
def legacyLabelInZoomRange (zoom : ℚ) (label : OverlayLabel) : Bool :=
  decide (label.minZoom ≤ zoom) && decide (zoom ≤ label.maxZoom)

/-- The labels the legacy renderer selects at a given zoom. -/
def legacyZoomFilteredLabels (labels : List OverlayLabel) (zoom : ℚ) : List OverlayLabel :=
  labels.filter (legacyLabelInZoomRange zoom)

/-- Last element of `t0 :: ts` (the time of the last event of a burst). -/
def lastTime (t0 : ℤ) : List ℤ → ℤ
  | [] => t0
  | t :: ts => lastTime t ts

/-! ## Theorems -/

/-- The running vector after the accumulation step of `processFrame`. -/
lemma accumulateMovement_totalMovement (st : TileTracker) (fm : Option Movement) :
    (accumulateMovement st fm).1.totalMovement =
      match fm with
      | some m => ⟨st.totalMovement.x + m.x, st.totalMovement.y + m.y⟩
      | none => st.totalMovement := by
  cases fm with
  | none => rfl
  | some m =>
    by_cases h : (m.x ≠ 0 ∨ m.y ≠ 0)
    · simp [accumulateMovement, h]
    · push_neg at h
      simp [accumulateMovement, h.1, h.2]

/-- Claim C2: `calculateFrameMovement` returns the raw per-axis delta
unchanged when its magnitude is at most half a tile unit (256 for tile unit
512), and otherwise corrects it by one full tile unit (512) toward zero,
marking the result as wrapped; in particular a raw delta of x = 400 yields
-112 and a raw delta of x = -400 yields 112. -/
theorem calculateFrameMovement_unwraps (f t : Anchor) :
    ∃ m, calculateFrameMovement (some f) (some t) = some m ∧
      (|t.x - f.x| ≤ 256 → m.x = t.x - f.x) ∧
      (256 < |t.x - f.x| →
        m.x = (if 0 < t.x - f.x then t.x - f.x - 512 else t.x - f.x + 512) ∧
        m.wrapped = true) ∧
      (|t.y - f.y| ≤ 256 → m.y = t.y - f.y) ∧
      (256 < |t.y - f.y| →
        m.y = (if 0 < t.y - f.y then t.y - f.y - 512 else t.y - f.y + 512) ∧
        m.wrapped = true) ∧
      calculateFrameMovement (some ⟨0, 0⟩) (some ⟨400, 0⟩) = some ⟨-112, 0, true⟩ ∧
      calculateFrameMovement (some ⟨0, 0⟩) (some ⟨-400, 0⟩) = some ⟨112, 0, true⟩ := by
  refine ⟨_, rfl, ?_, ?_, ?_, ?_, by decide, by decide⟩
  · intro h
    simp only [calculateFrameMovement]
    rw [if_neg (not_lt.mpr h)]
  · intro h
    simp only [calculateFrameMovement]
    rw [if_pos h]
    exact ⟨rfl, by simp [h]⟩
  · intro h
    simp only [calculateFrameMovement]
    rw [if_neg (not_lt.mpr h)]
  · intro h
    simp only [calculateFrameMovement]
    rw [if_pos h]
    exact ⟨rfl, by simp [h]⟩

/-- Witness for C2 at a concrete pair of anchors. -/
theorem calculateFrameMovement_unwraps_witness :
    calculateFrameMovement (some ⟨0, 0⟩) (some ⟨400, 0⟩) = some ⟨-112, 0, true⟩ := by
  obtain ⟨m, -, -, -, -, -, h, -⟩ := calculateFrameMovement_unwraps ⟨0, 0⟩ ⟨400, 0⟩
  exact h

/-- Claim C3 counterexample: a per-frame delta classified as wrapped is
nevertheless folded into the running movement vector. From a state with URL
baseline and frame baseline at (0, 0) and zero accumulated movement, a frame
whose anchor lands at (400, 0) produces the wrap-corrected, wrapped-flagged
delta (-112, 0), and `processFrame` accumulates it. -/
theorem processFrame_accumulates_wrapped_delta :
    (calculateFrameMovement (some ⟨0, 0⟩) (some ⟨400, 0⟩)).map Movement.wrapped = some true ∧
    (processFrame
      { urlBaseline := some ⟨0, 0⟩, frameBaseline := some ⟨0, 0⟩,
        totalMovement := ⟨0, 0⟩, mapPosition := none,
        currentFrameTiles := [⟨400, 0, 512, 512⟩] }).1.totalMovement = ⟨-112, 0⟩ := by
  decide

/-- Claim C3 (amended): the running movement vector is reset to exactly
{0, 0} when a new URL baseline is captured - both when the first anchor
after a ground-truth reset becomes the baseline and on `resetBaselines` -
and in every other `processFrame` step it accumulates the wrap-corrected
per-frame delta, whether or not that delta is flagged as wrapped. -/
theorem tracker_reset_and_accumulation :
    (∀ (st : TileTracker) (a : Anchor), st.currentFrameTiles ≠ [] →
       st.urlBaseline = none → findAnchorTile st.currentFrameTiles = some a →
       (processFrame st).1.totalMovement = ⟨0, 0⟩ ∧
       (processFrame st).1.urlBaseline = some a ∧
       (processFrame st).2 = [TrackerMsg.baselineReset]) ∧
    (∀ (pos : MapPosition) (st : TileTracker),
       (resetBaselines pos st).1.totalMovement = ⟨0, 0⟩ ∧
       (resetBaselines pos st).2 = [TrackerMsg.baselineReset]) ∧
    (∀ (st : TileTracker) (b : Anchor), st.urlBaseline = some b →
       (processFrame st).1.totalMovement =
         ⟨st.totalMovement.x + (frameDelta st).x,
          st.totalMovement.y + (frameDelta st).y⟩) := by
  refine ⟨?_, ?_, ?_⟩
  · intro st a hne hnone hanchor
    simp [processFrame, hne, hnone, hanchor]
  · intro pos st
    cases h : st.frameBaseline <;> simp [resetBaselines, h]
  · intro st b hsome
    by_cases hne : st.currentFrameTiles = []
    · simp [processFrame, hne, frameDelta, findAnchorTile]
    · cases hanchor : findAnchorTile st.currentFrameTiles with
      | none => simp [processFrame, hne, hanchor, frameDelta]
      | some a =>
        have hacc := accumulateMovement_totalMovement st
          (calculateFrameMovement st.frameBaseline (some a))
        cases hfb : st.frameBaseline with
        | none =>
          simp [processFrame, accumulateMovement, hne, hanchor, hsome, hfb,
                frameDelta, calculateFrameMovement]
        | some fb =>
          rw [hfb] at hacc
          simp [calculateFrameMovement] at hacc
          simp [processFrame, hne, hanchor, hsome, hfb, frameDelta,
                calculateFrameMovement, hacc]

/-- Witness for C3 (amended) at concrete tracker states. -/
theorem tracker_reset_and_accumulation_witness :
    (processFrame
      { urlBaseline := none, frameBaseline := none, totalMovement := ⟨5, 6⟩,
        mapPosition := none, currentFrameTiles := [⟨0, 0, 512, 512⟩] }).1.totalMovement
      = ⟨0, 0⟩ ∧
    (resetBaselines ⟨1, 2, 3⟩
      { urlBaseline := some ⟨7, 8⟩, frameBaseline := some ⟨9, 9⟩, totalMovement := ⟨5, 6⟩,
        mapPosition := none, currentFrameTiles := [] }).1.totalMovement = ⟨0, 0⟩ := by
  obtain ⟨h1, h2, -⟩ := tracker_reset_and_accumulation
  exact ⟨(h1 _ ⟨0, 0⟩ (by decide) rfl (by decide)).1, (h2 ⟨1, 2, 3⟩ _).1⟩

/-- Claim C5 counterexample: the legacy renderer (unnamed part_006) filters
labels with a closed upper bound, so a label whose zoom window is
min 4 / max 16 is still selected for painting at zoom exactly 16. -/
theorem legacyZoomFilter_selects_at_max :
    legacyZoomFilteredLabels [⟨4, 16⟩] 16 = [⟨4, 16⟩] ∧
    labelInZoomRange 16 ⟨4, 16⟩ = false := by
  decide

/-- Claim C5 (amended): `OverlayEngine.redrawAllLabels` selects a label
exactly when minZoom ≤ zoom < maxZoom (half-open window: a [4, 16) label is
selected at 4 and at 15.999 but not at 16), while the legacy
`renderOverlappingLabels` filter (unnamed part_006) uses the closed test
minZoom ≤ zoom ≤ maxZoom. -/
theorem zoomRange_halfOpen_in_overlay_engine :
    (∀ (labels : List OverlayLabel) (zoom : ℚ) (l : OverlayLabel),
       l ∈ redrawSelectedLabels labels zoom ↔
         l ∈ labels ∧ l.minZoom ≤ zoom ∧ zoom < l.maxZoom) ∧
    labelInZoomRange 4 ⟨4, 16⟩ = true ∧
    labelInZoomRange (15999 / 1000) ⟨4, 16⟩ = true ∧
    labelInZoomRange 16 ⟨4, 16⟩ = false ∧
    (∀ (labels : List OverlayLabel) (zoom : ℚ) (l : OverlayLabel),
       l ∈ legacyZoomFilteredLabels labels zoom ↔
         l ∈ labels ∧ l.minZoom ≤ zoom ∧ zoom ≤ l.maxZoom) := by
  refine ⟨?_, by decide, by norm_num [labelInZoomRange], by decide, ?_⟩
  · intro labels zoom l
    simp [redrawSelectedLabels, labelInZoomRange, List.mem_filter, and_assoc]
  · intro labels zoom l
    simp [legacyZoomFilteredLabels, legacyLabelInZoomRange, List.mem_filter, and_assoc]

/-- Claim C10: URL parsing gives the direct-zoom encoding precedence over
the meters encoding: whenever the zoom pattern matches with all components
parsing to numbers, its result is returned (even if a meters match is also
present); a meters result is returned only when no such zoom match exists;
and when neither pattern matches the result is `none`. -/
theorem extractMapParameters_zoom_precedence (url : List Char) :
    (∀ g1 g2 g3 lat lng zoom,
       scanPattern 'z' url = some (g1, g2, g3) →
       parseFloatQ g1 = some lat → parseFloatQ g2 = some lng →
       parseFloatQ g3 = some zoom →
       scanPattern 'm' url ≠ none →
       extractMapParameters url = some (UrlPosition.zoomPos lat lng zoom)) ∧
    (∀ lat lng meters,
       extractMapParameters url = some (UrlPosition.metersPos lat lng meters) →
       ∀ g1 g2 g3, scanPattern 'z' url = some (g1, g2, g3) →
         parseFloatQ g1 = none ∨ parseFloatQ g2 = none ∨ parseFloatQ g3 = none) ∧
    (scanPattern 'z' url = none → scanPattern 'm' url = none →
       extractMapParameters url = none) := by
  refine ⟨?_, ?_, ?_⟩
  · intro g1 g2 g3 lat lng zoom hz h1 h2 h3 _
    simp [extractMapParameters, extractZoomFormat, hz, h1, h2, h3]
  · intro lat lng meters h g1 g2 g3 hz
    cases hp1 : parseFloatQ g1 with
    | none => exact Or.inl rfl
    | some a =>
      cases hp2 : parseFloatQ g2 with
      | none => exact Or.inr (Or.inl rfl)
      | some b =>
        cases hp3 : parseFloatQ g3 with
        | none => exact Or.inr (Or.inr rfl)
        | some c =>
          simp [extractMapParameters, extractZoomFormat, hz, hp1, hp2, hp3] at h
  · intro h1 h2
    simp [extractMapParameters, extractZoomFormat, extractMetersFormat, h1, h2]

/-- Witness for C10 on a URL containing both a zoom match and a meters
match: the zoom result wins. -/
theorem extractMapParameters_zoom_precedence_witness :
    scanPattern 'z' "@1,2,3z@4,5,600m".toList = some (['1'], ['2'], ['3']) ∧
    scanPattern 'm' "@1,2,3z@4,5,600m".toList ≠ none ∧
    extractMapParameters "@1,2,3z@4,5,600m".toList =
      some (UrlPosition.zoomPos 1 2 3) := by
  have hd0 : digitsVal ([] : List Char) = 0 := by decide
  have h1 : parseFloatQ ['1'] = some 1 := by
    have hparts : parseFloatParts ['1'] = some (false, ['1'], []) := by decide
    have hd : digitsVal ['1'] = 1 := by decide
    simp [parseFloatQ, hparts, hd, hd0]
  have h2 : parseFloatQ ['2'] = some 2 := by
    have hparts : parseFloatParts ['2'] = some (false, ['2'], []) := by decide
    have hd : digitsVal ['2'] = 2 := by decide
    simp [parseFloatQ, hparts, hd, hd0]
  have h3 : parseFloatQ ['3'] = some 3 := by
    have hparts : parseFloatParts ['3'] = some (false, ['3'], []) := by decide
    have hd : digitsVal ['3'] = 3 := by decide
    simp [parseFloatQ, hparts, hd, hd0]
  refine ⟨by decide, by decide, ?_⟩
  exact (extractMapParameters_zoom_precedence "@1,2,3z@4,5,600m".toList).1
    ['1'] ['2'] ['3'] 1 2 3 (by decide) h1 h2 h3 (by decide)

/-- Claim C7: the ground-truth refresh is idempotent with respect to
notifications: calling `updatePositionFromUrl` twice in succession with the
URL (and environment) unchanged leaves the state of the second call exactly
as it was and emits zero change notifications. -/
theorem updatePositionFromUrl_idempotent (env : MapEnv) (st : MapState) :
    updatePositionFromUrl env (updatePositionFromUrl env st).1 =
      ((updatePositionFromUrl env st).1, []) := by
  by_cases hpz : st.parentIsZero = false
  · simp [updatePositionFromUrl, hpz]
  · have hpz' : st.parentIsZero = true := by revert hpz; cases st.parentIsZero <;> simp
    cases hp : extractMapParameters env.url with
    | none => simp [updatePositionFromUrl, hpz', hp]
    | some position =>
      cases position with
      | zoomPos la ln z => simp [updatePositionFromUrl, hpz', hp]
      | metersPos la ln m => simp [updatePositionFromUrl, hpz', hp]

/-- Claim C9 counterexample: the legacy refresh (unnamed part_006) does not
retain the last known state on an unparseable URL - it clears both the
center and the zoom to null. -/
theorem legacyUpdate_resets_on_unparseable :
    (legacyUpdatePositionFromUrl "https://maps.example/preview".toList
        { parentIsZero := true, lastCenter := some (1, 2), lastZoom := some 5 }) =
      { parentIsZero := true, lastCenter := none, lastZoom := none } := by
  decide

/-- Claim C9 (amended): `MapState2D.updatePositionFromUrl` is a no-op (state
retained, zero notifications) when the URL yields no parse; the legacy
variant in unnamed part_006 instead resets `lastCenter` and `lastZoom` to
null when the patterns are absent. -/
theorem updatePositionFromUrl_no_parse (env : MapEnv) (st : MapState)
    (h : extractMapParameters env.url = none) :
    updatePositionFromUrl env st = (st, []) ∧
    (∀ (url : List Char) (lst : LegacyState), lst.parentIsZero = true →
       scanCenterPattern url = none → scanPattern 'z' url = none →
       legacyUpdatePositionFromUrl url lst =
         { lst with lastCenter := none, lastZoom := none }) := by
  constructor
  · by_cases hpz : st.parentIsZero = false
    · simp [updatePositionFromUrl, hpz]
    · have hpz' : st.parentIsZero = true := by revert hpz; cases st.parentIsZero <;> simp
      simp [updatePositionFromUrl, hpz', h]
  · intro url lst hpz hc hz
    simp [legacyUpdatePositionFromUrl, hpz, hc, hz]

/-- Witness for C9 (amended) on a concrete URL without a position pattern. -/
theorem updatePositionFromUrl_no_parse_witness :
    extractMapParameters "https://maps.example/preview".toList = none ∧
    updatePositionFromUrl
        { url := "https://maps.example/preview".toList, parentWidth := 800,
          parentHeight := 600, canvasStyle := none, parentStyle := none }
        { center := some (1, 2), zoom := 5, viewMode := some "map".toList,
          canvasTransform := ⟨0, 0, 1⟩, parentTransform := ⟨0, 0, 1⟩,
          parentIsZero := true, isPotentiallyZooming := false, timeout := none } =
      ({ center := some (1, 2), zoom := 5, viewMode := some "map".toList,
         canvasTransform := ⟨0, 0, 1⟩, parentTransform := ⟨0, 0, 1⟩,
         parentIsZero := true, isPotentiallyZooming := false, timeout := none }, []) := by
  have h : extractMapParameters "https://maps.example/preview".toList = none := by decide
  exact ⟨h, (updatePositionFromUrl_no_parse _ _ h).1⟩

/-- Claim C6 counterexample: `convertMetersToZoom` has no upper clamp at 22.
One meter visible over a 4096-pixel viewport at the equator yields a zoom
above 22 (log2(40075017 / 256 * 4096) is roughly 29.3). -/
theorem convertMetersToZoom_exceeds_22 :
    (22 : ℝ) < convertMetersToZoom 1 0 4096 := by
  have hcos : Real.cos (latRad 0) = 1 := by simp [latRad]
  have hlogb1 : Real.logb 2 (1 / Real.cos (latRad 0)) = 0 := by
    rw [hcos]; norm_num
  have hval : (40075017 / 256 : ℝ) / (1 / 4096) = 641200272 := by norm_num
  have hgt : (22 : ℝ) < Real.logb 2 641200272 := by
    rw [Real.lt_logb_iff_rpow_lt (by norm_num) (by norm_num)]
    have h22 : (2 : ℝ) ^ (22 : ℝ) = (2 : ℝ) ^ (22 : ℕ) := by
      rw [← Real.rpow_natCast 2 22]; norm_num
    rw [h22]; norm_num
  simp only [convertMetersToZoom]
  rw [hval, hlogb1, sub_zero]
  exact lt_max_of_lt_right hgt

/-- Claim C6 (amended): `convertMetersToZoom` follows the documented scale
relationship (meters-per-pixel against the equator value, adjusted by the
Mercator factor 1/cos(lat)) and is clamped non-negative, so the result is
always >= 0; but no upper clamp at 22 exists, and extreme inputs exceed 22. -/
theorem convertMetersToZoom_nonneg_formula (m lat h : ℝ)
    (hm : 0 < m) (hh : 0 < h) (hc : 0 < Real.cos (latRad lat)) :
    0 ≤ convertMetersToZoom m lat h ∧
    convertMetersToZoom m lat h =
      max 0 (Real.logb 2 (40075017 / 256 / (m / h) * Real.cos (latRad lat))) := by
  constructor
  · simp only [convertMetersToZoom]
    exact le_max_left _ _
  · simp only [convertMetersToZoom]
    congr 1
    have hX : (40075017 / 256 : ℝ) / (m / h) ≠ 0 :=
      (div_pos (by norm_num) (div_pos hm hh)).ne'
    rw [one_div, Real.logb_inv, sub_neg_eq_add, ← Real.logb_mul hX hc.ne']

/-- Witness for C6 (amended): 5000 meters over a 1000-pixel viewport at the
equator. -/
theorem convertMetersToZoom_nonneg_formula_witness :
    (0 : ℝ) < 5000 ∧ (0 : ℝ) < 1000 ∧ 0 < Real.cos (latRad 0) ∧
    (0 ≤ convertMetersToZoom 5000 0 1000 ∧
     convertMetersToZoom 5000 0 1000 =
       max 0 (Real.logb 2 (40075017 / 256 / (5000 / 1000) * Real.cos (latRad 0)))) := by
  have h1 : (0 : ℝ) < 5000 := by norm_num
  have h2 : (0 : ℝ) < 1000 := by norm_num
  have h3 : 0 < Real.cos (latRad 0) := by simp [latRad]
  exact ⟨h1, h2, h3, convertMetersToZoom_nonneg_formula 5000 0 1000 h1 h2 h3⟩

/-- Claim C4 counterexample: `MapState2D.mapLatLngToCanvas` does not apply
the device-pixel-ratio scaling or the tile-alignment correction of the
specified formula. At the tracked center (projection delta zero), container
1000x600, tile size 256 and zero translation, it returns x = 500 while the
specified formula returns x = 500 - 256 + (1000 mod 128) = 348. -/
theorem mapLatLngToCanvas_omits_alignment :
    mapLatLngToCanvas
        { centerLat := 10, centerLng := 20, zoom := 5, translateX := 0, translateY := 0,
          canvasCenterX := 500, canvasCenterY := 300, parentWidth := 1000,
          parentHeight := 600, tileSize := 256, transformMultiplier := 1 } 10 20 ≠
      specLatLngToCanvas
        { centerLat := 10, centerLng := 20, zoom := 5, translateX := 0, translateY := 0,
          canvasCenterX := 500, canvasCenterY := 300, parentWidth := 1000,
          parentHeight := 600, tileSize := 256, transformMultiplier := 1 } 10 20 := by
  intro hEq
  have h1 := congrArg Prod.fst hEq
  simp [mapLatLngToCanvas, specLatLngToCanvas, calculatePixelOffset,
        googleMapsLatLngToPoint] at h1
  norm_num at h1

/-- Claim C4 (amended): the formula the claim describes (projection delta,
plus overlay center in display coordinates, minus the canvasTransform
translation scaled by the device-pixel-ratio multiplier, plus the
tile-alignment term `-tileSize + dimension mod (tileSize / 2)` per axis) is
computed by `latLngToCanvasPixel` (unnamed part_006); `MapState2D.
mapLatLngToCanvas` instead returns the delta plus the container
half-dimensions minus the raw translation, with no scaling or alignment. -/
theorem latLngToCanvasPixel_matches_spec (env : ConvEnv) (lat lng : ℝ) :
    latLngToCanvasPixel env lat lng = specLatLngToCanvas env lat lng ∧
    mapLatLngToCanvas env lat lng =
      ((env.parentWidth : ℝ) / 2 +
         ((calculatePixelOffset env.centerLat env.centerLng lat lng env.zoom).1 : ℝ) -
         env.translateX,
       (env.parentHeight : ℝ) / 2 +
         ((calculatePixelOffset env.centerLat env.centerLng lat lng env.zoom).2 : ℝ) -
         env.translateY) := by
  constructor
  · unfold latLngToCanvasPixel specLatLngToCanvas
    simp only [Prod.mk.injEq]
    constructor <;> push_cast <;> ring
  · rfl

/-- Ground-truth refresh does not touch the interaction timer. -/
lemma u_timeout (env : MapEnv) (st : MapState) :
    (updatePositionFromUrl env st).1.timeout = st.timeout := by
  by_cases hpz : st.parentIsZero = false
  · simp [updatePositionFromUrl, hpz]
  · have hpz' : st.parentIsZero = true := by revert hpz; cases st.parentIsZero <;> simp
    cases hp : extractMapParameters env.url with
    | none => simp [updatePositionFromUrl, hpz', hp]
    | some p => cases p <;> simp [updatePositionFromUrl, hpz', hp]

/-- Ground-truth refresh does not touch the interaction flag. -/
lemma u_ipz (env : MapEnv) (st : MapState) :
    (updatePositionFromUrl env st).1.isPotentiallyZooming = st.isPotentiallyZooming := by
  by_cases hpz : st.parentIsZero = false
  · simp [updatePositionFromUrl, hpz]
  · have hpz' : st.parentIsZero = true := by revert hpz; cases st.parentIsZero <;> simp
    cases hp : extractMapParameters env.url with
    | none => simp [updatePositionFromUrl, hpz', hp]
    | some p => cases p <;> simp [updatePositionFromUrl, hpz', hp]

/-- Ground-truth refresh never emits `zoomResolved`. -/
lemma u_filter_zr (env : MapEnv) (st : MapState) :
    ((updatePositionFromUrl env st).2.filter fun c => c = Change.zoomResolved) = [] := by
  by_cases hpz : st.parentIsZero = false
  · simp [updatePositionFromUrl, hpz]
  · have hpz' : st.parentIsZero = true := by revert hpz; cases st.parentIsZero <;> simp
    cases hp : extractMapParameters env.url with
    | none => simp [updatePositionFromUrl, hpz', hp]
    | some p =>
      cases p <;> simp [updatePositionFromUrl, hpz', hp]

/-- Canvas-transform refresh does not touch the interaction timer. -/
lemma uct_timeout (env : MapEnv) (st : MapState) :
    (updateCanvasTransform env st).1.timeout = st.timeout := by
  cases h : env.canvasStyle with
  | none => simp [updateCanvasTransform, h]
  | some t => by_cases he : t = st.canvasTransform <;> simp [updateCanvasTransform, h, he]

/-- Canvas-transform refresh does not touch the interaction flag. -/
lemma uct_ipz (env : MapEnv) (st : MapState) :
    (updateCanvasTransform env st).1.isPotentiallyZooming = st.isPotentiallyZooming := by
  cases h : env.canvasStyle with
  | none => simp [updateCanvasTransform, h]
  | some t => by_cases he : t = st.canvasTransform <;> simp [updateCanvasTransform, h, he]

/-- Canvas-transform refresh never emits `zoomResolved`. -/
lemma uct_filter_zr (env : MapEnv) (st : MapState) :
    ((updateCanvasTransform env st).2.filter fun c => c = Change.zoomResolved) = [] := by
  cases h : env.canvasStyle with
  | none => simp [updateCanvasTransform, h]
  | some t => by_cases he : t = st.canvasTransform <;> simp [updateCanvasTransform, h, he]

/-- The rest-triggered refresh step preserves the timer. -/
lemma prr_timeout (env : MapEnv) (st1 : MapState) (wz iz : Bool) :
    (parentRestRefresh env st1 wz iz).1.timeout = st1.timeout := by
  cases wz <;> cases iz <;> simp [parentRestRefresh, u_timeout]

/-- The rest-triggered refresh step preserves the interaction flag. -/
lemma prr_ipz (env : MapEnv) (st1 : MapState) (wz iz : Bool) :
    (parentRestRefresh env st1 wz iz).1.isPotentiallyZooming = st1.isPotentiallyZooming := by
  cases wz <;> cases iz <;> simp [parentRestRefresh, u_ipz]

/-- The rest-triggered refresh step never emits `zoomResolved`. -/
lemma prr_filter_zr (env : MapEnv) (st1 : MapState) (wz iz : Bool) :
    ((parentRestRefresh env st1 wz iz).2.filter fun c => c = Change.zoomResolved) = [] := by
  cases wz <;> cases iz <;> simp [parentRestRefresh, u_filter_zr]

/-- Parent-transform refresh does not touch the interaction timer. -/
lemma upt_timeout (env : MapEnv) (st : MapState) :
    (updateParentTransform env st).1.timeout = st.timeout := by
  by_cases he : env.parentStyle.getD { translateX := 0, translateY := 0, scale := 1 }
      = st.parentTransform
  · simp [updateParentTransform, he]
  · simp [updateParentTransform, he, prr_timeout]

/-- Parent-transform refresh does not touch the interaction flag. -/
lemma upt_ipz (env : MapEnv) (st : MapState) :
    (updateParentTransform env st).1.isPotentiallyZooming = st.isPotentiallyZooming := by
  by_cases he : env.parentStyle.getD { translateX := 0, translateY := 0, scale := 1 }
      = st.parentTransform
  · simp [updateParentTransform, he]
  · simp [updateParentTransform, he, prr_ipz]

/-- Parent-transform refresh never emits `zoomResolved`. -/
lemma upt_filter_zr (env : MapEnv) (st : MapState) :
    ((updateParentTransform env st).2.filter fun c => c = Change.zoomResolved) = [] := by
  by_cases he : env.parentStyle.getD { translateX := 0, translateY := 0, scale := 1 }
      = st.parentTransform
  · simp [updateParentTransform, he]
  · simp [updateParentTransform, he, List.filter_append, prr_filter_zr]

/-- The timer callback always clears the pending timer. -/
lemma fireZoomTimeout_timeout (env : MapEnv) (st : MapState) :
    (fireZoomTimeout env st).1.timeout = none := by
  simp [fireZoomTimeout, upt_timeout, uct_timeout, u_timeout]

/-- The timer callback emits exactly one `zoomResolved`. -/
lemma fireZoomTimeout_filter (env : MapEnv) (st : MapState) :
    ((fireZoomTimeout env st).2.filter fun c => c = Change.zoomResolved)
      = [Change.zoomResolved] := by
  simp [fireZoomTimeout, List.filter_append, u_filter_zr, uct_filter_zr, upt_filter_zr]

/-- Timestamp-tagging commutes with filtering for `zoomResolved`. -/
lemma filter_zr_map_time (t : ℤ) (cs : List Change) :
    ((cs.map fun c => (t, c)).filter fun p => p.2 = Change.zoomResolved)
      = (cs.filter fun c => c = Change.zoomResolved).map fun c => (t, c) := by
  induction cs with
  | nil => rfl
  | cons a l ih => by_cases h : a = Change.zoomResolved <;> simp [List.filter_cons, h, ih]

/-- A burst of qualifying inputs arriving while a timer armed at `tf` is
pending (each event less than a second after its predecessor, the first
before `tf`) yields exactly one `zoomResolved`, one second after the last
event. -/
lemma runEvents_inputs_pending (env : MapEnv) (ts : List ℤ) :
    ∀ (st : MapState) (tf : ℤ), st.timeout = some tf →
    List.Chain' (fun a b => a < b ∧ b < a + 1000) ((tf - 1000) :: ts) →
    ((runEvents env (ts.map fun t => (t, MapEvent.zoomInput)) st).2.filter
        fun p => p.2 = Change.zoomResolved)
      = [(lastTime (tf - 1000) ts + 1000, Change.zoomResolved)] := by
  induction ts with
  | nil =>
    intro st tf htf _
    simp [runEvents, htf, lastTime, filter_zr_map_time, fireZoomTimeout_filter]
  | cons t ts' ih =>
    intro st tf htf hch
    rcases List.chain'_cons.mp hch with ⟨⟨h1, h2⟩, hch'⟩
    have hnot : ¬ tf ≤ t := by omega
    have hch2 : List.Chain' (fun a b => a < b ∧ b < a + 1000) ((t + 1000 - 1000) :: ts') := by
      rw [add_sub_cancel_right]; exact hch'
    have hrun := ih (handlePotentialZoomInteraction t st).1 (t + 1000) rfl hch2
    rw [add_sub_cancel_right] at hrun
    simp only [List.map_cons, runEvents, htf, if_neg hnot]
    simpa [lastTime, handlePotentialZoomInteraction] using hrun

/-- Claim C8: the interaction-pending debounce is correct. (a) For any burst
of qualifying input events starting from a state with no pending timer, each
event less than one second after the previous, exactly one `zoomResolved`
notification is emitted, one second after the last event. (b) Every
qualifying input re-arms the timer to fire one second later, clearing the
previous timer, and emits nothing itself. (c) A ground-truth refresh from a
genuine URL-change event arriving while the timer is pending cancels it and
resolves immediately, emitting exactly one `zoomResolved`. -/
theorem interaction_debounce_and_cancel :
    (∀ (env : MapEnv) (st : MapState) (t0 : ℤ) (ts : List ℤ),
       st.timeout = none →
       List.Chain' (fun a b => a < b ∧ b < a + 1000) (t0 :: ts) →
       ((runEvents env ((t0 :: ts).map fun t => (t, MapEvent.zoomInput)) st).2.filter
           fun p => p.2 = Change.zoomResolved)
         = [(lastTime t0 ts + 1000, Change.zoomResolved)]) ∧
    (∀ (now : ℤ) (st : MapState),
       (handlePotentialZoomInteraction now st).1.timeout = some (now + 1000) ∧
       (handlePotentialZoomInteraction now st).1.isPotentiallyZooming = true ∧
       (handlePotentialZoomInteraction now st).2 = []) ∧
    (∀ (env : MapEnv) (st : MapState) (tf : ℤ),
       st.timeout = some tf → st.parentIsZero = true →
       (handleUrlChanged env st).1.timeout = none ∧
       (handleUrlChanged env st).1.isPotentiallyZooming = false ∧
       ((handleUrlChanged env st).2.filter fun c => c = Change.zoomResolved)
         = [Change.zoomResolved]) := by
  refine ⟨?_, ?_, ?_⟩
  · intro env st t0 ts h0 hch
    have hch2 : List.Chain' (fun a b => a < b ∧ b < a + 1000) ((t0 + 1000 - 1000) :: ts) := by
      rw [add_sub_cancel_right]; exact hch
    have hrun := runEvents_inputs_pending env ts
      (handlePotentialZoomInteraction t0 st).1 (t0 + 1000) rfl hch2
    rw [add_sub_cancel_right] at hrun
    simp only [List.map_cons, runEvents, h0]
    simpa [lastTime, handlePotentialZoomInteraction] using hrun
  · intro now st
    exact ⟨rfl, rfl, rfl⟩
  · intro env st tf htf hpz
    have hut : (updatePositionFromUrl env st).1.timeout = some tf := by
      rw [u_timeout]; exact htf
    refine ⟨?_, ?_, ?_⟩
    · simp [handleUrlChanged, hpz, hut, upt_timeout, uct_timeout]
    · simp [handleUrlChanged, hpz, hut, upt_ipz, uct_ipz]
    · simp [handleUrlChanged, hpz, hut, List.filter_append, u_filter_zr,
            uct_filter_zr, upt_filter_zr]

/-- Witness for C8: three inputs at 0, 500 and 900 ms resolve exactly once
at 1900 ms; a URL change against a pending timer resolves immediately. -/
theorem interaction_debounce_and_cancel_witness :
    sampleIdleState.timeout = none ∧
    List.Chain' (fun a b : ℤ => a < b ∧ b < a + 1000) [0, 500, 900] ∧
    ((runEvents sampleEnv ([0, 500, 900].map fun t => (t, MapEvent.zoomInput))
        sampleIdleState).2.filter fun p => p.2 = Change.zoomResolved)
      = [(1900, Change.zoomResolved)] ∧
    samplePendingState.timeout = some 1000 ∧
    samplePendingState.parentIsZero = true ∧
    (handleUrlChanged sampleEnv samplePendingState).1.timeout = none := by
  have hch : List.Chain' (fun a b : ℤ => a < b ∧ b < a + 1000) [0, 500, 900] := by
    norm_num [List.chain'_cons]
  have h0 : sampleIdleState.timeout = none := rfl
  have hrun := (interaction_debounce_and_cancel).1 sampleEnv sampleIdleState 0 [500, 900] h0 hch
  have hpend : samplePendingState.timeout = some 1000 := rfl
  have hpz : samplePendingState.parentIsZero = true := rfl
  have hcancel := (interaction_debounce_and_cancel).2.2 sampleEnv samplePendingState 1000 hpend hpz
  refine ⟨h0, hch, ?_, hpend, hpz, hcancel.1⟩
  rw [hrun]
  norm_num [lastTime]

/-- The world size is positive at every zoom. -/
lemma worldSize_pos (zoom : ℝ) : 0 < worldSize zoom 256 := by
  unfold worldSize
  have h2 : (0 : ℝ) < (2 : ℝ) ^ zoom := Real.rpow_pos_of_pos (by norm_num) zoom
  have h256 : (0 : ℝ) < ((256 : ℤ) : ℝ) := by norm_num
  exact mul_pos h2 h256

/-- For latitudes above -90 degrees the Mercator angle is positive. -/
lemma theta_pos {lat : ℝ} (h : -90 < lat) : 0 < Real.pi / 4 + latRad lat / 2 := by
  have hpi := Real.pi_pos
  have hp : 0 < (lat + 90) * Real.pi := mul_pos (by linarith) hpi
  unfold latRad
  nlinarith

/-- For latitudes below 90 degrees the Mercator angle is below pi/2. -/
lemma theta_lt {lat : ℝ} (h : lat < 90) : Real.pi / 4 + latRad lat / 2 < Real.pi / 2 := by
  have hpi := Real.pi_pos
  have hp : 0 < (90 - lat) * Real.pi := mul_pos (by linarith) hpi
  unfold latRad
  nlinarith

/-- Inside the open latitude range the Mercator tangent is positive. -/
lemma tan_theta_pos {lat : ℝ} (h : lat ∈ Set.Ioo (-90 : ℝ) 90) :
    0 < Real.tan (Real.pi / 4 + latRad lat / 2) :=
  Real.tan_pos_of_pos_of_lt_pi_div_two (theta_pos h.1) (theta_lt h.2)

/-- The inverse Mercator ordinate inverts `normY` exactly on the open
latitude range. -/
lemma invLatOfNormY_normY {lat : ℝ} (h : lat ∈ Set.Ioo (-90 : ℝ) 90) :
    invLatOfNormY (normY lat) = lat := by
  have htan := tan_theta_pos h
  have hpi := Real.pi_pos
  have harg : (1 / 2 - normY lat) * (2 * Real.pi) = mercN lat := by
    unfold normY
    field_simp
  unfold invLatOfNormY
  rw [harg]
  unfold mercN
  rw [Real.exp_log htan]
  rw [Real.arctan_tan (by linarith [theta_pos h.1]) (theta_lt h.2)]
  unfold latRad
  field_simp
  ring

/-- The inverse Mercator ordinate is strictly decreasing. -/
lemma invLatOfNormY_strictAnti : StrictAnti invLatOfNormY := by
  intro y1 y2 h
  have hpi := Real.pi_pos
  unfold invLatOfNormY
  have hexp : Real.exp ((1 / 2 - y2) * (2 * Real.pi)) <
      Real.exp ((1 / 2 - y1) * (2 * Real.pi)) := by
    apply Real.exp_lt_exp.mpr
    nlinarith
  have harc := Real.arctan_strictMono hexp
  rw [div_lt_div_iff_of_pos_right hpi]
  linarith

/-- Claim C1: the projection round-trips. For every latitude in the
Mercator-valid range (open (-90, 90) with `|mercN lat| <= pi`, i.e. within
the Web-Mercator cut at about 85.05 degrees), longitude in [-180, 180], and
zoom level: the floored world pixel returned by `googleMapsLatLngToPoint`
recovers the longitude and latitude through the inverse Mercator formulas to
within one pixel (the longitude lies within one pixel's worth of degrees
below the inverse of the pixel ordinate; the latitude lies in the one-pixel
interval `(invLat((py + 1) / W), invLat(py / W)]`); and at zoom = 0 both
pixel coordinates lie within [0, 256]. -/
theorem projection_roundtrip_and_zoom0 (lat lng zoom : ℝ)
    (hlat : lat ∈ Set.Ioo (-90 : ℝ) 90)
    (hmerc : |mercN lat| ≤ Real.pi)
    (hlng : lng ∈ Set.Icc (-180 : ℝ) 180) :
    (lng - 360 / worldSize zoom 256 <
        invLngOfNormX (((googleMapsLatLngToPoint lat lng zoom).1 : ℝ) / worldSize zoom 256) ∧
     invLngOfNormX (((googleMapsLatLngToPoint lat lng zoom).1 : ℝ) / worldSize zoom 256)
        ≤ lng) ∧
    (invLatOfNormY ((((googleMapsLatLngToPoint lat lng zoom).2 : ℝ) + 1) / worldSize zoom 256)
        < lat ∧
     lat ≤ invLatOfNormY (((googleMapsLatLngToPoint lat lng zoom).2 : ℝ) / worldSize zoom 256)) ∧
    (0 ≤ (googleMapsLatLngToPoint lat lng 0).1 ∧
     (googleMapsLatLngToPoint lat lng 0).1 ≤ 256 ∧
     0 ≤ (googleMapsLatLngToPoint lat lng 0).2 ∧
     (googleMapsLatLngToPoint lat lng 0).2 ≤ 256) := by
  have hW : 0 < worldSize zoom 256 := worldSize_pos zoom
  have hpx : googleMapsLatLngToPoint lat lng zoom =
      (⌊normX lng * worldSize zoom 256⌋, ⌊normY lat * worldSize zoom 256⌋) := rfl
  have hnx : normX lng * 360 = lng + 180 := by
    unfold normX; field_simp
  refine ⟨⟨?_, ?_⟩, ⟨?_, ?_⟩, ?_⟩
  · -- lower bound for the longitude round-trip
    rw [hpx]
    have hfu : normX lng * worldSize zoom 256 <
        (⌊normX lng * worldSize zoom 256⌋ : ℝ) + 1 := Int.lt_floor_add_one _
    have h1 : normX lng < ((⌊normX lng * worldSize zoom 256⌋ : ℝ) + 1) / worldSize zoom 256 :=
      (lt_div_iff₀ hW).mpr hfu
    have h2 := mul_lt_mul_of_pos_right h1 (by norm_num : (0 : ℝ) < 360)
    rw [hnx] at h2
    have hring : (((⌊normX lng * worldSize zoom 256⌋ : ℝ) + 1) / worldSize zoom 256) * 360
        = ((⌊normX lng * worldSize zoom 256⌋ : ℝ) / worldSize zoom 256) * 360
          + 360 / worldSize zoom 256 := by ring
    rw [hring] at h2
    unfold invLngOfNormX
    linarith
  · -- upper bound for the longitude round-trip
    rw [hpx]
    have hfl : ((⌊normX lng * worldSize zoom 256⌋ : ℤ) : ℝ) ≤ normX lng * worldSize zoom 256 :=
      Int.floor_le _
    have h1 : ((⌊normX lng * worldSize zoom 256⌋ : ℝ)) / worldSize zoom 256 ≤ normX lng :=
      (div_le_iff₀ hW).mpr (by linarith)
    have h2 := mul_le_mul_of_nonneg_right h1 (by norm_num : (0 : ℝ) ≤ 360)
    rw [hnx] at h2
    unfold invLngOfNormX
    linarith
  · -- latitude: strictly above the inverse of the next pixel row
    rw [hpx]
    have hfu : normY lat * worldSize zoom 256 <
        (⌊normY lat * worldSize zoom 256⌋ : ℝ) + 1 := Int.lt_floor_add_one _
    have h1 : normY lat < ((⌊normY lat * worldSize zoom 256⌋ : ℝ) + 1) / worldSize zoom 256 :=
      (lt_div_iff₀ hW).mpr hfu
    have h2 := invLatOfNormY_strictAnti h1
    rw [invLatOfNormY_normY hlat] at h2
    exact h2
  · -- latitude: at most the inverse of its own pixel row
    rw [hpx]
    have hfl : ((⌊normY lat * worldSize zoom 256⌋ : ℤ) : ℝ) ≤ normY lat * worldSize zoom 256 :=
      Int.floor_le _
    have h1 : ((⌊normY lat * worldSize zoom 256⌋ : ℝ)) / worldSize zoom 256 ≤ normY lat :=
      (div_le_iff₀ hW).mpr (by linarith)
    have h2 := invLatOfNormY_strictAnti.antitone h1
    rw [invLatOfNormY_normY hlat] at h2
    exact h2
  · -- zoom = 0: the whole world fits in one 256-pixel tile
    have hW0 : worldSize 0 256 = 256 := by
      unfold worldSize
      rw [Real.rpow_zero]
      norm_num
    have hp0 : googleMapsLatLngToPoint lat lng 0 =
        (⌊normX lng * (256 : ℝ)⌋, ⌊normY lat * (256 : ℝ)⌋) := by
      unfold googleMapsLatLngToPoint googleMapsLatLngToPointT
      rw [hW0]
    have hx0 : 0 ≤ normX lng := by
      unfold normX
      exact div_nonneg (by linarith [hlng.1]) (by norm_num)
    have hx1 : normX lng ≤ 1 := by
      unfold normX
      rw [div_le_one (by norm_num)]
      linarith [hlng.2]
    have hm := abs_le.mp hmerc
    have hpi := Real.pi_pos
    have hy0 : 0 ≤ normY lat := by
      unfold normY
      have hd : mercN lat / (2 * Real.pi) ≤ 1 / 2 := by
        rw [div_le_iff₀ (by positivity)]
        linarith [hm.2]
      linarith
    have hy1 : normY lat ≤ 1 := by
      unfold normY
      have hd : -(1 / 2) ≤ mercN lat / (2 * Real.pi) := by
        rw [le_div_iff₀ (by positivity)]
        linarith [hm.1]
      linarith
    rw [hp0]
    refine ⟨?_, ?_, ?_, ?_⟩
    · exact Int.le_floor.mpr (by push_cast; positivity)
    · calc ⌊normX lng * (256 : ℝ)⌋ ≤ ⌊(256 : ℝ)⌋ := Int.floor_le_floor (by nlinarith)
        _ = 256 := by norm_num
    · exact Int.le_floor.mpr (by push_cast; positivity)
    · calc ⌊normY lat * (256 : ℝ)⌋ ≤ ⌊(256 : ℝ)⌋ := Int.floor_le_floor (by nlinarith)
        _ = 256 := by norm_num

/-- Witness for C1 at latitude 0, longitude 0, zoom 1. -/
theorem projection_roundtrip_and_zoom0_witness :
    (0 : ℝ) ∈ Set.Ioo (-90 : ℝ) 90 ∧ |mercN 0| ≤ Real.pi ∧
    (0 : ℝ) ∈ Set.Icc (-180 : ℝ) 180 ∧
    ((0 - 360 / worldSize 1 256 <
        invLngOfNormX (((googleMapsLatLngToPoint 0 0 1).1 : ℝ) / worldSize 1 256) ∧
      invLngOfNormX (((googleMapsLatLngToPoint 0 0 1).1 : ℝ) / worldSize 1 256) ≤ 0) ∧
     (invLatOfNormY ((((googleMapsLatLngToPoint 0 0 1).2 : ℝ) + 1) / worldSize 1 256) < 0 ∧
      (0 : ℝ) ≤ invLatOfNormY (((googleMapsLatLngToPoint 0 0 1).2 : ℝ) / worldSize 1 256)) ∧
     (0 ≤ (googleMapsLatLngToPoint 0 0 0).1 ∧
      (googleMapsLatLngToPoint 0 0 0).1 ≤ 256 ∧
      0 ≤ (googleMapsLatLngToPoint 0 0 0).2 ∧
      (googleMapsLatLngToPoint 0 0 0).2 ≤ 256)) := by
  have h1 : (0 : ℝ) ∈ Set.Ioo (-90 : ℝ) 90 := by constructor <;> norm_num
  have h2 : |mercN 0| ≤ Real.pi := by
    have hz : mercN 0 = 0 := by
      simp [mercN, latRad, Real.tan_pi_div_four]
    rw [hz]
    simpa using Real.pi_nonneg
  have h3 : (0 : ℝ) ∈ Set.Icc (-180 : ℝ) 180 := by constructor <;> norm_num
  exact ⟨h1, h2, h3, projection_roundtrip_and_zoom0 0 0 1 h1 h2 h3⟩

end Wokemaps
